import Mathlib

/-
Verification of the live audio session subsystem of the Satyavak repository
(the LiveCourtroomSession component and the getTextToSpeech service call).

The definitions below are a shallow embedding of the TypeScript source:
  - the playback scheduling arithmetic of the onmessage handler,
  - the session state machine driven by the channel callbacks
    (onopen, onmessage, onerror) and the playback completion listener,
  - the cleanUp teardown sequence,
  - the opening-statement flow (playOpeningStatement, getTextToSpeech),
  - the capture-side sample encoding (onaudioprocess).
Machine floats in the capture path are modelled as rationals; JS Int16Array
conversion is modelled as truncation toward zero followed by wraparound
modulo 2^16 with signed reinterpretation.
-/

namespace Satyavak

/-! ## Playback scheduler (onmessage audio branch)

The source, on each inbound model-audio frame, executes
  nextStartTime := max nextStartTime currentClock;
  source.start nextStartTime;
  nextStartTime := nextStartTime + buffer.duration
We model one frame as a pair (clock at arrival, decoded duration). -/

/-- One scheduling step of the onmessage audio branch: given the tracked
next-start-time, the current playback clock and the decoded duration, return
the computed start time and the new tracked next-start-time. -/
def scheduleFrame (nextStart clock dur : ℚ) : ℚ × ℚ :=
  let start := max nextStart clock
  (start, start + dur)

/-- The list of (start time, duration) pairs produced by scheduling a list of
frames (each given as (arrival clock, decoded duration)) in arrival order,
threading the tracked next-start-time exactly as the source does. -/
def playbackSchedule (nextStart : ℚ) : List (ℚ × ℚ) → List (ℚ × ℚ)
  | [] => []
  | (c, d) :: rest =>
      let p := scheduleFrame nextStart c d
      (p.1, d) :: playbackSchedule p.2 rest

/-! ## Session state machine

State of the LiveCourtroomSession component: the status, the two transcript
accumulators and their displayed partials, the committed transcript list, the
set of active playback sources (by identifier), the tracked next-start-time,
whether the microphone processing node was attached (onopen success), and a
count of encoded media frames sent by the capture callback. -/

/-- Session status values of the component. -/
inductive Status
  | initializing
  | starting
  | listening
  | speaking
  | ended
  | error
deriving DecidableEq

/-- Speaker tag of a committed transcript entry. -/
inductive Speaker
  | you
  | judge
deriving DecidableEq

/-- A committed transcript entry. -/
structure Entry where
  speaker : Speaker
  text : String
deriving DecidableEq

/-- JS String.prototype.trim: remove leading and trailing whitespace. Modelled
over the character list so that it evaluates by kernel reduction. -/
def jsTrim (s : String) : String :=
  String.mk (((s.data.dropWhile Char.isWhitespace).reverse.dropWhile
    Char.isWhitespace).reverse)

/-- The mutable per-session state held in React refs and state hooks. -/
structure SessionState where
  status : Status
  userAcc : String
  judgeAcc : String
  userDisplay : String
  judgeDisplay : String
  transcripts : List Entry
  sources : List Nat
  nextStartTime : ℚ
  micAttached : Bool
  sentFrames : Nat
deriving DecidableEq

/-- Events driving the session: channel open outcome, inbound server message
variants (split per field, as the handler treats each field independently),
playback-source completion, a capture-callback tick, transport error, and the
user ending the session. A malformed model-audio frame is the audioFrameBad
event: the handler sets status and the clock max before the decode throws. -/
inductive Event
  | openSuccess
  | openMicDenied
  | userText (t : String)
  | judgeText (t : String)
  | turnComplete
  | audioFrame (id : Nat) (clock dur : ℚ)
  | audioFrameBad (clock : ℚ)
  | sourceEnded (id : Nat)
  | captureChunk
  | transportError
  | endSession
deriving DecidableEq

/-- One step of the session state machine, translated from the onopen,
onmessage, onerror handlers, the source ended listener and handleEndSession
in the source. Each handler invocation is modelled as atomic. -/
def step (s : SessionState) : Event → SessionState
  | Event.openSuccess => { s with status := Status.listening, micAttached := true }
  | Event.openMicDenied => { s with status := Status.error }
  | Event.userText t =>
      { s with userAcc := s.userAcc ++ t, userDisplay := s.userAcc ++ t }
  | Event.judgeText t =>
      { s with judgeAcc := s.judgeAcc ++ t, judgeDisplay := s.judgeAcc ++ t }
  | Event.turnComplete =>
      { s with
        transcripts := s.transcripts
          ++ (if jsTrim s.userAcc ≠ "" then [⟨Speaker.you, jsTrim s.userAcc⟩] else [])
          ++ (if jsTrim s.judgeAcc ≠ "" then [⟨Speaker.judge, jsTrim s.judgeAcc⟩] else []),
        userAcc := "", judgeAcc := "", userDisplay := "", judgeDisplay := "" }
  | Event.audioFrame id clock dur =>
      let start := max s.nextStartTime clock
      { s with
        status := Status.speaking,
        nextStartTime := start + dur,
        sources := if id ∈ s.sources then s.sources else s.sources ++ [id] }
  | Event.audioFrameBad clock =>
      { s with status := Status.speaking, nextStartTime := max s.nextStartTime clock }
  | Event.sourceEnded id =>
      let remaining := s.sources.filter (fun j => j != id)
      { s with
        sources := remaining,
        status := if remaining = [] then Status.listening else s.status }
  | Event.captureChunk =>
      if s.micAttached then { s with sentFrames := s.sentFrames + 1 } else s
  | Event.transportError => { s with status := Status.error }
  | Event.endSession => { s with status := Status.ended }

/-- The freshly constructed component state. -/
def initState : SessionState :=
  { status := Status.initializing, userAcc := "", judgeAcc := "",
    userDisplay := "", judgeDisplay := "", transcripts := [], sources := [],
    nextStartTime := 0, micAttached := false, sentFrames := 0 }

/-- The state just after startLiveSession set status to starting. -/
def startingState : SessionState := { initState with status := Status.starting }

/-- The state just after a successful channel open and microphone grant. -/
def listenState : SessionState :=
  { initState with status := Status.listening, micAttached := true }

/-- Partial-transcript events (the inputTranscription and outputTranscription
message fields). -/
def isTextEvent : Event → Bool
  | Event.userText _ => true
  | Event.judgeText _ => true
  | _ => false

/-- Events of normal in-session operation: inbound messages with well-formed
payloads, playback completions and capture ticks; excludes the open outcome,
transport errors, malformed frames and the end-session action. -/
def allowedEvent : Event → Bool
  | Event.userText _ => true
  | Event.judgeText _ => true
  | Event.turnComplete => true
  | Event.audioFrame _ _ _ => true
  | Event.sourceEnded _ => true
  | Event.captureChunk => true
  | _ => false

/-- Whether an event is the successful channel-open callback. -/
def isOpenSuccess : Event → Bool
  | Event.openSuccess => true
  | _ => false

/-! ## Teardown order (cleanUp)

The cleanUp function in the source runs, in program order:
  sessionPromise ?.then (close)        -- deferred: the then-callback runs as a
                                       -- microtask after the synchronous body
  mediaStream ?.tracks.forEach stop
  scriptProcessor ?.disconnect
  if inputCtx and state not closed then inputCtx.close
  outputSources.forEach stop
  if outputCtx and state not closed then outputCtx.close
So the execution order of the releases is: microphone tracks, processing
node, input audio context, playback sources, output audio context, and then
the channel close (requested first, executed last). -/

/-- The distinct resource releases performed by cleanUp. -/
inductive ReleaseAction
  | closeChannel
  | stopMicTracks
  | disconnectProcessor
  | closeInputCtx
  | stopSources
  | closeOutputCtx
deriving DecidableEq

/-- Which resource handles are currently held (session promise set, media
stream acquired, processor node created, input context open, at least one
active playback source, output context open). -/
structure CleanUpRefs where
  hasSession : Bool
  hasMediaStream : Bool
  hasProcessor : Bool
  inputCtxOpen : Bool
  hasOutputSources : Bool
  outputCtxOpen : Bool
deriving DecidableEq

/-- Execution order of the releases performed by one cleanUp call, for a given
set of held handles. The channel close is requested first in program order via
a promise continuation, so it executes after the synchronous releases. -/
def cleanUpOrder (r : CleanUpRefs) : List ReleaseAction :=
  (if r.hasMediaStream then [ReleaseAction.stopMicTracks] else [])
  ++ (if r.hasProcessor then [ReleaseAction.disconnectProcessor] else [])
  ++ (if r.inputCtxOpen then [ReleaseAction.closeInputCtx] else [])
  ++ (if r.hasOutputSources then [ReleaseAction.stopSources] else [])
  ++ (if r.outputCtxOpen then [ReleaseAction.closeOutputCtx] else [])
  ++ (if r.hasSession then [ReleaseAction.closeChannel] else [])

/-- A fully started session: every handle held. -/
def fullRefs : CleanUpRefs := ⟨true, true, true, true, true, true⟩

/-- The release order cleanUp actually performs when every handle is held. -/
def fullReleaseOrder : List ReleaseAction :=
  [ReleaseAction.stopMicTracks, ReleaseAction.disconnectProcessor,
   ReleaseAction.closeInputCtx, ReleaseAction.stopSources,
   ReleaseAction.closeOutputCtx, ReleaseAction.closeChannel]

/-! ## Teardown effect and idempotence (cleanUp, resource view)

We model each handle with enough state to express the browser and SDK error
semantics that cleanUp relies on:
  - channel close is idempotent (SDK contract), modelled as setting a flag;
  - MediaStreamTrack.stop and AudioNode.disconnect never throw;
  - AudioContext.close throws on an already closed context, which the source
    guards with a state check, modelled by closeCtxGuarded skipping it;
  - AudioBufferSourceNode.stop throws only if start was never called. -/

/-- Audio context lifecycle state. -/
inductive CtxState
  | running
  | closed
deriving DecidableEq

/-- A playback source handle: whether start was called and whether it has been
stopped (by completion or explicitly). -/
structure SourceHandle where
  started : Bool
  stopped : Bool
deriving DecidableEq

/-- Resource handles of one session instance. none means never acquired.
For the session the Bool is the closed flag; for media tracks, the stopped
flag of each track; for the processor, the connected flag. -/
structure Resources where
  session : Option Bool
  mediaTracks : Option (List Bool)
  processor : Option Bool
  inputCtx : Option CtxState
  sources : List SourceHandle
  outputCtx : Option CtxState
deriving DecidableEq

/-- The only throwing release in the model: stopping a source that was never
started raises InvalidStateError. -/
inductive TeardownError
  | invalidState
deriving DecidableEq

/-- AudioBufferSourceNode.stop: succeeds on a started source (also if already
stopped), throws if start was never called. -/
def stopSourceHandle (s : SourceHandle) : Except TeardownError SourceHandle :=
  if s.started then Except.ok { s with stopped := true }
  else Except.error TeardownError.invalidState

/-- The guarded context close of cleanUp: close only a context that exists and
is not already closed, otherwise skip. -/
def closeCtxGuarded : Option CtxState → Option CtxState
  | some CtxState.running => some CtxState.closed
  | x => x

/-- Stopping every source in the active set (forEach stop); the first throwing
stop aborts the iteration with its error. -/
def stopAllSources : List SourceHandle → Except TeardownError (List SourceHandle)
  | [] => Except.ok []
  | s :: rest =>
      match stopSourceHandle s, stopAllSources rest with
      | Except.ok s2, Except.ok rest2 => Except.ok (s2 :: rest2)
      | Except.error e, _ => Except.error e
      | Except.ok _, Except.error e => Except.error e

/-- One cleanUp call over the resource view: close the channel if the promise
was set, stop every media track, disconnect the processor, close the input
context behind its state guard, stop every active source, close the output
context behind its state guard. -/
def cleanUpRun (r : Resources) : Except TeardownError Resources :=
  match stopAllSources r.sources with
  | Except.error e => Except.error e
  | Except.ok newSources =>
      Except.ok
        { session := r.session.map (fun _ => true)
          mediaTracks := r.mediaTracks.map (fun ts => ts.map (fun _ => true))
          processor := r.processor.map (fun _ => false)
          inputCtx := closeCtxGuarded r.inputCtx
          sources := newSources
          outputCtx := closeCtxGuarded r.outputCtx }

/-- The resource state cleanUp leaves behind. -/
def releasedOf (r : Resources) : Resources :=
  { session := r.session.map (fun _ => true)
    mediaTracks := r.mediaTracks.map (fun ts => ts.map (fun _ => true))
    processor := r.processor.map (fun _ => false)
    inputCtx := closeCtxGuarded r.inputCtx
    sources := r.sources.map (fun s => ⟨s.started, true⟩)
    outputCtx := closeCtxGuarded r.outputCtx }

/-- Every handle is released or was never acquired: channel closed, tracks
stopped, processor disconnected, contexts not running, sources stopped. -/
def Released (r : Resources) : Prop :=
  r.session ≠ some false
  ∧ (∀ ts, r.mediaTracks = some ts → ∀ t ∈ ts, t = true)
  ∧ r.processor ≠ some true
  ∧ r.inputCtx ≠ some CtxState.running
  ∧ (∀ s ∈ r.sources, s.stopped = true)
  ∧ r.outputCtx ≠ some CtxState.running

/-- A fully started session with one playing source and two live tracks. -/
def sampleResources : Resources :=
  ⟨some false, some [false, false], some true, some CtxState.running,
   [⟨true, false⟩], some CtxState.running⟩

/-! ## Opening statement flow (playOpeningStatement, getTextToSpeech) -/

/-- The getTextToSpeech service call in the source extracts
candidates[0].content.parts[0].inlineData.data from the model response and
returns it if truthy, otherwise null. The argument is the extracted field
(none when any link of the optional chain is absent). -/
def getTextToSpeech (inlineData : Option String) : Option String :=
  match inlineData with
  | some s => if s = "" then none else some s
  | none => none

/-- Observable outcome of the playOpeningStatement flow: whether the catch
branch ran (status set to error), whether startLiveSession was reached, and
whether the opening audio was played. -/
structure OpeningOutcome where
  errored : Bool
  liveStarted : Bool
  openingPlayed : Bool
deriving DecidableEq

/-- playOpeningStatement from the source: await the one-shot text-to-speech
call; if it yields audio, play it and start the live session when playback
ends; if it yields null, start the live session directly; if it throws, the
catch branch sets the error message and status error and the live session is
not started. The argument is the text-to-speech response: an error, or the
extracted inline data field handed to getTextToSpeech. -/
def playOpeningStatement (resp : Except Unit (Option String)) : OpeningOutcome :=
  match resp with
  | Except.error _ => ⟨true, false, false⟩
  | Except.ok d =>
      match getTextToSpeech d with
      | some _ => ⟨false, true, true⟩
      | none => ⟨false, true, false⟩

/-! ## Capture-side encoding (onaudioprocess)

The capture callback maps each float sample f to f * 32768 and stores it in
an Int16Array. JS Int16Array conversion truncates toward zero and wraps
modulo 2^16 with signed reinterpretation. The sample bytes are then the
little-endian pair of the stored 16-bit value. -/

/-- JS ToIntegerOrInfinity on a finite value: truncation toward zero. -/
def jsTrunc (q : ℚ) : ℤ := if 0 ≤ q then ⌊q⌋ else ⌈q⌉

/-- Storing an integer into an Int16Array element: wrap modulo 2^16 and
reinterpret as signed. -/
def toInt16 (n : ℤ) : ℤ :=
  if n % 65536 < 32768 then n % 65536 else n % 65536 - 65536

/-- The value stored for one captured float sample: f * 32768 truncated and
wrapped as Int16Array assignment does. -/
def encodeSample (f : ℚ) : ℤ := toInt16 (jsTrunc (f * 32768))

/-- The two little-endian bytes of a stored 16-bit sample, as laid out in the
Int16Array buffer handed to the transport encoder. -/
def sampleBytes (n : ℤ) : List ℕ :=
  [(n % 65536 % 256).toNat, (n % 65536 / 256).toNat]

/-- The byte payload for one captured chunk: each sample scaled, converted and
packed, samples in order, no resampling. -/
def encodeChunk (fs : List ℚ) : List ℕ :=
  (fs.map (fun f => sampleBytes (encodeSample f))).flatten

/-- Modelled from the spec: the encode helper of utils/audio is not under
src/ (only its caller onaudioprocess is); the spec names the text-safe
transport encoding as base64. The standard base64 alphabet. -/
def base64Table : List Char :=
  "ABCDEFGHIJKLMNOPQRSTUVWXYZabcdefghijklmnopqrstuvwxyz0123456789+/".data

/-- The base64 digit for a 6-bit group (out-of-range indices cannot arise for
byte input and default to the first digit). -/
def base64Char (n : ℕ) : Char := base64Table.getD n 'A'

/-- Modelled from the spec: the missing utils/audio encode helper, standard
base64 with padding over the packed byte list, three bytes to four text
characters. -/
def base64Encode : List ℕ → List Char
  | [] => []
  | [b0] =>
      [base64Char (b0 / 4), base64Char (b0 % 4 * 16), '=', '=']
  | [b0, b1] =>
      [base64Char (b0 / 4), base64Char (b0 % 4 * 16 + b1 / 16),
       base64Char (b1 % 16 * 4), '=']
  | b0 :: b1 :: b2 :: rest =>
      base64Char (b0 / 4) :: base64Char (b0 % 4 * 16 + b1 / 16)
        :: base64Char (b1 % 16 * 4 + b2 / 64) :: base64Char (b2 % 64)
        :: base64Encode rest

/-- A character the transport encoding may emit: a base64 digit or the
padding character. -/
def isBase64Char (c : Char) : Bool := decide (c ∈ base64Table ∨ c = '=')

/-- The text payload of one EncodedMediaFrame: the packed sample bytes run
through the text-safe transport encoding, as the capture callback does with
encode applied to the Int16Array buffer bytes. -/
def encodeFrame (fs : List ℚ) : List Char := base64Encode (encodeChunk fs)

/-! ## Concrete inputs used by witnesses and counterexamples -/

/-- Three frames: (arrival clock, decoded duration) each. -/
def c1Frames : List (ℚ × ℚ) := [(0, 2), (1, 3), (10, 1)]

/-- Two partial-transcript events, one per side. -/
def c2Partials : List Event := [Event.userText "  hi", Event.judgeText "order!"]

/-- A trace reaching a state with status error and a playing source. -/
def c3BreakTrace : List Event :=
  [Event.openSuccess, Event.audioFrame 0 0 1, Event.transportError]

/-- A normal-operation trace with one scheduled frame. -/
def c3OkTrace : List Event := [Event.audioFrame 0 0 1]

/-- A continuation after the mic denial: capture ticks and messages, but no
successful open. -/
def c8Trace : List Event :=
  [Event.captureChunk, Event.userText "x", Event.turnComplete,
   Event.captureChunk]

/-- A state in which both transcript accumulators are non-empty. -/
def bothAccState : SessionState :=
  { initState with userAcc := " a ", judgeAcc := "b" }

/-! ## Helper lemmas -/

/-- Partial-transcript events never change the committed transcript list. -/
theorem foldl_textEvents_transcripts (ps : List Event) (s : SessionState)
    (hp : ps.all isTextEvent = true) :
    (ps.foldl step s).transcripts = s.transcripts := by
  induction ps generalizing s with
  | nil => rfl
  | cons e t ih =>
      simp only [List.all_cons, Bool.and_eq_true] at hp
      rw [List.foldl_cons, ih (step s e) hp.2]
      cases e <;> simp_all [step, isTextEvent]

/-- Events of normal operation preserve the status-vs-active-set invariant. -/
theorem step_preserves_speakingInv (s : SessionState) (e : Event)
    (ha : allowedEvent e = true)
    (h : s.status = Status.speaking ↔ s.sources ≠ []) :
    (step s e).status = Status.speaking ↔ (step s e).sources ≠ [] := by
  cases e with
  | openSuccess => simp [allowedEvent] at ha
  | openMicDenied => simp [allowedEvent] at ha
  | transportError => simp [allowedEvent] at ha
  | endSession => simp [allowedEvent] at ha
  | audioFrameBad c => simp [allowedEvent] at ha
  | userText t => simpa [step] using h
  | judgeText t => simpa [step] using h
  | turnComplete => simpa [step] using h
  | captureChunk =>
      cases hm : s.micAttached <;> simpa [step, hm] using h
  | audioFrame id c d =>
      refine ⟨fun _ => ?_, fun _ => by simp [step]⟩
      by_cases hm : id ∈ s.sources
      · simpa [step, hm] using List.ne_nil_of_mem hm
      · simp [step, hm]
  | sourceEnded id =>
      by_cases hr : s.sources.filter (fun j => j != id) = []
      · simp [step, hr]
      · have hs : s.sources ≠ [] := by
          intro h0
          rw [h0] at hr
          simp at hr
        simp [step, hr, h.mpr hs]

/-- The status-vs-active-set invariant is preserved along any trace of
normal-operation events. -/
theorem foldl_preserves_speakingInv (tr : List Event) (s : SessionState)
    (h : tr.all allowedEvent = true)
    (hinv : s.status = Status.speaking ↔ s.sources ≠ []) :
    (tr.foldl step s).status = Status.speaking
      ↔ (tr.foldl step s).sources ≠ [] := by
  induction tr generalizing s with
  | nil => exact hinv
  | cons e t ih =>
      simp only [List.all_cons, Bool.and_eq_true] at h
      exact ih (step s e) h.2 (step_preserves_speakingInv s e h.1 hinv)

/-- Without a successful open, the processing node stays unattached and the
sent-frame count never grows. -/
theorem foldl_no_open_no_frames (tr : List Event) (s : SessionState)
    (hm : s.micAttached = false)
    (h : tr.all (fun e => !isOpenSuccess e) = true) :
    (tr.foldl step s).micAttached = false
      ∧ (tr.foldl step s).sentFrames = s.sentFrames := by
  induction tr generalizing s with
  | nil => exact ⟨hm, rfl⟩
  | cons e t ih =>
      simp only [List.all_cons, Bool.and_eq_true] at h
      have hstep : (step s e).micAttached = false
          ∧ (step s e).sentFrames = s.sentFrames := by
        cases e <;> simp_all [step, isOpenSuccess]
      rw [List.foldl_cons]
      obtain ⟨h1, h2⟩ := ih (step s e) hstep.1 h.2
      exact ⟨h1, h2.trans hstep.2⟩

/-- Stopping the active set succeeds when every member was started, and marks
every member stopped. -/
theorem stopAllSources_ok (l : List SourceHandle)
    (h : l.all (fun s => s.started) = true) :
    stopAllSources l = Except.ok (l.map (fun s => ⟨s.started, true⟩)) := by
  induction l with
  | nil => rfl
  | cons a t ih =>
      simp only [List.all_cons, Bool.and_eq_true] at h
      simp [stopAllSources, stopSourceHandle, h.1, ih h.2]

/-- The guarded context close is idempotent. -/
theorem closeCtxGuarded_idem (x : Option CtxState) :
    closeCtxGuarded (closeCtxGuarded x) = closeCtxGuarded x := by
  rcases x with _ | c
  · rfl
  · cases c <;> rfl

/-- A value stored without wraparound is left unchanged by the signed 16-bit
reinterpretation. -/
theorem toInt16_eq_self (n : ℤ) (h1 : -32768 ≤ n) (h2 : n ≤ 32767) :
    toInt16 n = n := by
  simp only [toInt16]
  split <;> omega

/-- Truncation toward zero keeps a value of the open scale interval inside the
signed 16-bit range. -/
theorem jsTrunc_bounds (q : ℚ) (hl : -32768 ≤ q) (hu : q < 32768) :
    -32768 ≤ jsTrunc q ∧ jsTrunc q ≤ 32767 := by
  simp only [jsTrunc]
  split
  case isTrue h =>
    constructor
    · have : (0 : ℤ) ≤ ⌊q⌋ := Int.floor_nonneg.mpr h
      omega
    · have : ⌊q⌋ < (32768 : ℤ) := by
        rw [Int.floor_lt]
        exact_mod_cast hu
      omega
  case isFalse h =>
    push_neg at h
    constructor
    · have : (-32769 : ℤ) < ⌈q⌉ := by
        rw [Int.lt_ceil]
        calc ((-32769 : ℤ) : ℚ) < -32768 := by norm_num
          _ ≤ q := hl
      omega
    · have : ⌈q⌉ ≤ (0 : ℤ) := by
        rw [Int.ceil_le]
        exact_mod_cast le_of_lt h
      omega

/-- A positional lookup with a default yields a list member or the default. -/
theorem getD_mem_or_default {α : Type} (l : List α) (n : ℕ) (d : α) :
    l.getD n d ∈ l ∨ l.getD n d = d := by
  induction l generalizing n with
  | nil => right; cases n <;> rfl
  | cons a t ih =>
      cases n with
      | zero => left; simp
      | succ m =>
          rw [List.getD_cons_succ]
          rcases ih m with h | h
          · exact Or.inl (List.mem_cons_of_mem a h)
          · exact Or.inr h

/-- Every base64 digit is a character of the base64 alphabet. -/
theorem base64Char_safe (n : ℕ) : isBase64Char (base64Char n) = true := by
  simp only [isBase64Char, base64Char, decide_eq_true_eq]
  rcases getD_mem_or_default base64Table n 'A' with h | h
  · exact Or.inl h
  · rw [h]
    left
    decide

/-- The transport encoding emits only base64 digits and padding. -/
theorem base64Encode_text_safe (bs : List ℕ) :
    (base64Encode bs).all isBase64Char = true := by
  induction bs using base64Encode.induct with
  | case1 => rfl
  | case2 b0 =>
      simp [base64Encode, List.all_cons, base64Char_safe]
      decide
  | case3 b0 b1 =>
      simp [base64Encode, List.all_cons, base64Char_safe]
      decide
  | case4 b0 b1 b2 rest ih =>
      simp [base64Encode, List.all_cons, base64Char_safe, ih]

/-- Every packed byte is below 256. -/
theorem encodeChunk_bytes_lt (fs : List ℚ) :
    (encodeChunk fs).all (fun b => decide (b < 256)) = true := by
  induction fs with
  | nil => rfl
  | cons a t ih =>
      have hstep : encodeChunk (a :: t)
          = sampleBytes (encodeSample a) ++ encodeChunk t := by
        simp [encodeChunk]
      rw [hstep, List.all_append, ih]
      have hb1 : (encodeSample a % 65536 % 256).toNat < 256 := by omega
      have hb2 : (encodeSample a % 65536 / 256).toNat < 256 := by omega
      simp [sampleBytes, hb1, hb2]

/-- Each encoded chunk holds exactly two bytes per sample. -/
theorem encodeChunk_length (fs : List ℚ) :
    (encodeChunk fs).length = 2 * fs.length := by
  induction fs with
  | nil => rfl
  | cons a t ih =>
      simp only [encodeChunk, List.map_cons, List.flatten_cons,
        List.length_append, List.length_cons] at ih ⊢
      simp [sampleBytes] at ih ⊢
      omega

/-! ## Claim theorems -/

/-- Claim C1: gapless ordered playback. For frames processed in arrival order,
the start time of frame k+1 equals max of the scheduled end time of frame k
and the clock at arrival of frame k+1, hence is at least the start time of
frame k plus its duration; and each scheduling step advances the tracked
next-start-time by exactly the decoded duration past the computed start. -/
theorem gapless_playback (frames : List (ℚ × ℚ)) (n : ℚ) (k : ℕ)
    (hk : k + 1 < frames.length) :
    (((playbackSchedule n frames).getD (k + 1) (0, 0)).1
        = max (((playbackSchedule n frames).getD k (0, 0)).1
                + ((playbackSchedule n frames).getD k (0, 0)).2)
              ((frames.getD (k + 1) (0, 0)).1)
      ∧ ((playbackSchedule n frames).getD k (0, 0)).1
          + ((playbackSchedule n frames).getD k (0, 0)).2
          ≤ (((playbackSchedule n frames).getD (k + 1) (0, 0)).1))
    ∧ ∀ m c d : ℚ, (scheduleFrame m c d).2 = (scheduleFrame m c d).1 + d := by
  refine ⟨?_, fun m c d => rfl⟩
  induction frames generalizing n k with
  | nil => exact absurd hk (by simp)
  | cons hd tl ih =>
      obtain ⟨c, d⟩ := hd
      cases k with
      | zero =>
          cases tl with
          | nil => simp at hk
          | cons hd1 tl1 =>
              obtain ⟨c1, d1⟩ := hd1
              constructor
              · simp [playbackSchedule, scheduleFrame]
              · simp only [playbackSchedule, scheduleFrame, List.getD_cons_succ,
                  List.getD_cons_zero]
                exact le_max_left _ _
      | succ k0 =>
          have hlen : k0 + 1 < tl.length := by simpa using hk
          simpa [playbackSchedule] using ih (scheduleFrame n c d).2 k0 hlen

/-- Witness for C1 at a concrete frame list. -/
theorem gapless_playback_witness :
    (0 + 1 < c1Frames.length)
    ∧ (((((playbackSchedule 0 c1Frames).getD (0 + 1) (0, 0)).1
          = max (((playbackSchedule 0 c1Frames).getD 0 (0, 0)).1
                  + ((playbackSchedule 0 c1Frames).getD 0 (0, 0)).2)
                ((c1Frames.getD (0 + 1) (0, 0)).1))
        ∧ ((playbackSchedule 0 c1Frames).getD 0 (0, 0)).1
            + ((playbackSchedule 0 c1Frames).getD 0 (0, 0)).2
            ≤ ((playbackSchedule 0 c1Frames).getD (0 + 1) (0, 0)).1)
      ∧ ∀ m c d : ℚ, (scheduleFrame m c d).2 = (scheduleFrame m c d).1 + d) :=
  ⟨by decide, gapless_playback c1Frames 0 0 (by decide)⟩

/-- Claim C2: turn commit atomicity. After any sequence of partial-transcript
events followed by one turn-complete event, the transcript gains exactly the
entries dictated by the non-empty trimmed accumulators (hence at most two),
and both accumulators and both displayed partials are empty. -/
theorem turn_commit_atomicity (s : SessionState) (ps : List Event)
    (hp : ps.all isTextEvent = true) :
    (step (ps.foldl step s) Event.turnComplete).transcripts
        = s.transcripts
          ++ (if jsTrim (ps.foldl step s).userAcc ≠ ""
              then [⟨Speaker.you, jsTrim (ps.foldl step s).userAcc⟩] else [])
          ++ (if jsTrim (ps.foldl step s).judgeAcc ≠ ""
              then [⟨Speaker.judge, jsTrim (ps.foldl step s).judgeAcc⟩] else [])
    ∧ (step (ps.foldl step s) Event.turnComplete).transcripts.length
        ≤ s.transcripts.length + 2
    ∧ (step (ps.foldl step s) Event.turnComplete).userAcc = ""
    ∧ (step (ps.foldl step s) Event.turnComplete).judgeAcc = ""
    ∧ (step (ps.foldl step s) Event.turnComplete).userDisplay = ""
    ∧ (step (ps.foldl step s) Event.turnComplete).judgeDisplay = "" := by
  have htr := foldl_textEvents_transcripts ps s hp
  refine ⟨by simp [step, htr], ?_, rfl, rfl, rfl, rfl⟩
  simp only [step, htr, List.append_assoc, List.length_append]
  split_ifs <;> simp

/-- Witness for C2: two partial events, then turn complete, from the fresh
state. -/
theorem turn_commit_atomicity_witness :
    (c2Partials.all isTextEvent = true)
    ∧ ((step (c2Partials.foldl step initState) Event.turnComplete).transcripts
        = initState.transcripts
          ++ (if jsTrim (c2Partials.foldl step initState).userAcc ≠ ""
              then [⟨Speaker.you, jsTrim (c2Partials.foldl step initState).userAcc⟩]
              else [])
          ++ (if jsTrim (c2Partials.foldl step initState).judgeAcc ≠ ""
              then [⟨Speaker.judge, jsTrim (c2Partials.foldl step initState).judgeAcc⟩]
              else [])
      ∧ (step (c2Partials.foldl step initState)
            Event.turnComplete).transcripts.length
          ≤ initState.transcripts.length + 2
      ∧ (step (c2Partials.foldl step initState) Event.turnComplete).userAcc = ""
      ∧ (step (c2Partials.foldl step initState) Event.turnComplete).judgeAcc = ""
      ∧ (step (c2Partials.foldl step initState) Event.turnComplete).userDisplay = ""
      ∧ (step (c2Partials.foldl step initState) Event.turnComplete).judgeDisplay = "") :=
  ⟨by decide, turn_commit_atomicity initState c2Partials (by decide)⟩

/-- Claim C3 counterexample: the state reached from the fresh component state
by the concrete trace open-success, one audio frame, transport error is a
reachable session state whose status is not Speaking although the active
source set is non-empty, so the claimed iff fails on it. -/
theorem status_active_iff_cex :
    ¬ (((c3BreakTrace.foldl step initState).status = Status.speaking)
        ↔ (c3BreakTrace.foldl step initState).sources ≠ []) := by
  decide

/-- Claim C3 amended: restricted to states reached from the post-open
Listening state by events of normal in-session operation (partial
transcripts, turn completes, well-formed audio frames, playback completions,
capture ticks), the status is Speaking iff the active source set is
non-empty, and a playback completion sets the status to Listening exactly
when it empties the active set. -/
theorem status_reflects_playback (tr : List Event)
    (h : tr.all allowedEvent = true) (id : Nat) :
    ((tr.foldl step listenState).status = Status.speaking
        ↔ (tr.foldl step listenState).sources ≠ [])
    ∧ ((step (tr.foldl step listenState) (Event.sourceEnded id)).status
          = Status.listening
        ↔ (tr.foldl step listenState).sources.filter (fun j => j != id) = []) := by
  have hinv := foldl_preserves_speakingInv tr listenState h (by decide)
  refine ⟨hinv, ?_⟩
  by_cases hr : (tr.foldl step listenState).sources.filter (fun j => j != id) = []
  · simp [step, hr]
  · have hs : (tr.foldl step listenState).sources ≠ [] := by
      intro h0
      rw [h0] at hr
      simp at hr
    simp [step, hr, hinv.mpr hs]

/-- Witness for the amended C3 at a concrete trace and source id. -/
theorem status_reflects_playback_witness :
    (c3OkTrace.all allowedEvent = true)
    ∧ (((c3OkTrace.foldl step listenState).status = Status.speaking
        ↔ (c3OkTrace.foldl step listenState).sources ≠ [])
      ∧ ((step (c3OkTrace.foldl step listenState)
            (Event.sourceEnded 0)).status = Status.listening
        ↔ (c3OkTrace.foldl step
            listenState).sources.filter (fun j => j != 0) = [])) :=
  ⟨by decide, status_reflects_playback c3OkTrace (by decide) 0⟩

/-- Claim C4 counterexample: in the release order cleanUp actually executes
for a fully started session, the microphone tracks are stopped strictly
before the active playback sources, so the claimed order (playback sources
first, then microphone, then channel) is false. -/
theorem teardown_order_cex :
    ReleaseAction.stopSources ∈ cleanUpOrder fullRefs
    ∧ ReleaseAction.stopMicTracks ∈ cleanUpOrder fullRefs
    ∧ (cleanUpOrder fullRefs).indexOf ReleaseAction.stopMicTracks
        < (cleanUpOrder fullRefs).indexOf ReleaseAction.stopSources := by
  decide

/-- Claim C4 amended: ending the session releases resources in the order
microphone tracks, processing node, input audio context, active playback
sources, output audio context, and then the streaming channel (whose close is
requested first in program order but executes as a deferred continuation
after the synchronous releases); for any subset of held handles the releases
performed follow that same relative order. -/
theorem teardown_release_order (r : CleanUpRefs) :
    (cleanUpOrder r).Sublist fullReleaseOrder
    ∧ cleanUpOrder fullRefs = fullReleaseOrder := by
  obtain ⟨a, b, c, d, e, f⟩ := r
  exact ⟨by cases a <;> cases b <;> cases c <;> cases d <;> cases e <;>
    cases f <;> decide, by decide⟩

/-- Claim C5: idempotent teardown. For any resource state whose active
sources were all started (the code adds a source to the set only after
calling start on it), one cleanUp call succeeds without error and yields the
released state, a second call succeeds and changes nothing, and in the
released state every handle is released or was never acquired; in particular
this covers the never-started session where every handle is absent. -/
theorem idempotent_teardown (r : Resources)
    (h : r.sources.all (fun s => s.started) = true) :
    cleanUpRun r = Except.ok (releasedOf r)
    ∧ cleanUpRun (releasedOf r) = Except.ok (releasedOf r)
    ∧ Released (releasedOf r) := by
  have h2 : (releasedOf r).sources.all (fun s => s.started) = true := by
    simp only [releasedOf, List.all_map]
    simpa using h
  refine ⟨?_, ?_, ?_⟩
  · simp [cleanUpRun, stopAllSources_ok r.sources h, releasedOf]
  · have hs2 := stopAllSources_ok (releasedOf r).sources h2
    simp only [cleanUpRun, hs2]
    simp only [releasedOf, Option.map_map, List.map_map, Function.comp_def,
      closeCtxGuarded_idem]
  · refine ⟨?_, ?_, ?_, ?_, ?_, ?_⟩
    · rcases hx : r.session with _ | b <;> simp [releasedOf, hx]
    · intro ts hts t ht
      have hproj : (releasedOf r).mediaTracks
          = r.mediaTracks.map (fun l => l.map (fun _ => true)) := rfl
      rw [hproj] at hts
      rcases hx : r.mediaTracks with _ | l
      · rw [hx] at hts
        exact absurd hts (by simp)
      · rw [hx, Option.map_some'] at hts
        have heq := Option.some.inj hts
        rw [← heq] at ht
        simp only [List.mem_map] at ht
        obtain ⟨a, ha, hb⟩ := ht
        exact hb.symm
    · rcases hx : r.processor with _ | b <;> simp [releasedOf, hx]
    · rcases hx : r.inputCtx with _ | c
      · simp [releasedOf, closeCtxGuarded, hx]
      · cases c <;> simp [releasedOf, closeCtxGuarded, hx]
    · intro s hs
      simp only [releasedOf, List.mem_map] at hs
      obtain ⟨_, _, hb⟩ := hs
      rw [← hb]
    · rcases hx : r.outputCtx with _ | c
      · simp [releasedOf, closeCtxGuarded, hx]
      · cases c <;> simp [releasedOf, closeCtxGuarded, hx]

/-- Witness for C5 on a fully started session with one playing source. -/
theorem idempotent_teardown_witness :
    (sampleResources.sources.all (fun s => s.started) = true)
    ∧ (cleanUpRun sampleResources = Except.ok (releasedOf sampleResources)
      ∧ cleanUpRun (releasedOf sampleResources)
          = Except.ok (releasedOf sampleResources)
      ∧ Released (releasedOf sampleResources)) :=
  ⟨by decide, idempotent_teardown sampleResources (by decide)⟩

/-- Claim C6 counterexample: when the one-shot text-to-speech call raises, the
catch branch of playOpeningStatement sets the error status and the live
session is never started, so the claim that a failing call also falls back to
the live-session start is false. -/
theorem opening_fallback_cex :
    (playOpeningStatement (Except.error ())).liveStarted = false
    ∧ (playOpeningStatement (Except.error ())).errored = true := by
  decide

/-- Claim C6 amended: only when the one-shot text-to-speech call returns
without audio (null, modelled together with an empty payload) does the
session proceed directly to the live-session start without entering the
Error state; when the call raises, the session enters the Error state and the
live session is not started. -/
theorem opening_fallback (d : Option String) :
    (playOpeningStatement (Except.ok d)).errored = false
    ∧ playOpeningStatement (Except.ok none) = ⟨false, true, false⟩
    ∧ playOpeningStatement (Except.error ()) = ⟨true, false, false⟩ := by
  refine ⟨?_, rfl, rfl⟩
  rcases d with _ | s
  · rfl
  · by_cases hs : s = "" <;> simp [playOpeningStatement, getTextToSpeech, hs]

/-- Claim C7 counterexample: processing a malformed audio frame from the
Listening state changes the session status to Speaking (the handler sets the
status before decoding and the failure never reverts it), so the claim that
the session status is unaffected by the failed frame is false. -/
theorem decode_failure_cex :
    (step listenState (Event.audioFrameBad 0)).status = Status.speaking
    ∧ listenState.status = Status.listening := by
  decide

/-- Claim C7 amended: a malformed frame is skipped without touching the
transcripts, accumulators or active set, and any subsequent well-formed frame
arriving at a clock no earlier than the failure is scheduled exactly as it
would have been without the failed frame; however the handler sets the
session status to Speaking before decoding, so the status is affected. -/
theorem decode_failure_nonfatal (s : SessionState) (c cn d : ℚ) (id : Nat)
    (hc : c ≤ cn) :
    (step s (Event.audioFrameBad c)).transcripts = s.transcripts
    ∧ (step s (Event.audioFrameBad c)).sources = s.sources
    ∧ (step s (Event.audioFrameBad c)).userAcc = s.userAcc
    ∧ (step s (Event.audioFrameBad c)).judgeAcc = s.judgeAcc
    ∧ (step s (Event.audioFrameBad c)).status = Status.speaking
    ∧ step (step s (Event.audioFrameBad c)) (Event.audioFrame id cn d)
        = step s (Event.audioFrame id cn d) := by
  have hmax : max (max s.nextStartTime c) cn = max s.nextStartTime cn := by
    rw [max_assoc, max_eq_right hc]
  exact ⟨rfl, rfl, rfl, rfl, rfl, by simp [step, hmax]⟩

/-- Witness for the amended C7 at concrete clocks from the Listening state. -/
theorem decode_failure_nonfatal_witness :
    ((0 : ℚ) ≤ 1)
    ∧ ((step listenState (Event.audioFrameBad 0)).transcripts
          = listenState.transcripts
      ∧ (step listenState (Event.audioFrameBad 0)).sources = listenState.sources
      ∧ (step listenState (Event.audioFrameBad 0)).userAcc = listenState.userAcc
      ∧ (step listenState (Event.audioFrameBad 0)).judgeAcc = listenState.judgeAcc
      ∧ (step listenState (Event.audioFrameBad 0)).status = Status.speaking
      ∧ step (step listenState (Event.audioFrameBad 0)) (Event.audioFrame 5 1 2)
          = step listenState (Event.audioFrame 5 1 2)) :=
  ⟨by decide, decode_failure_nonfatal listenState 0 1 2 5 (by decide)⟩

/-- Claim C8: if microphone access is denied while the session is Starting,
the status becomes Error, and along any continuation in which the channel
open never succeeds no encoded media frame is ever sent; on success the
status transitions from Starting to Listening. -/
theorem mic_denied_safety (tr : List Event)
    (h : tr.all (fun e => !isOpenSuccess e) = true) :
    (step startingState Event.openMicDenied).status = Status.error
    ∧ (tr.foldl step (step startingState Event.openMicDenied)).sentFrames = 0
    ∧ (step startingState Event.openSuccess).status = Status.listening := by
  refine ⟨rfl, ?_, rfl⟩
  have hres := foldl_no_open_no_frames tr
    (step startingState Event.openMicDenied) rfl h
  exact hres.2

/-- Witness for C8 on a continuation with capture ticks and messages. -/
theorem mic_denied_safety_witness :
    (c8Trace.all (fun e => !isOpenSuccess e) = true)
    ∧ ((step startingState Event.openMicDenied).status = Status.error
      ∧ (c8Trace.foldl step
          (step startingState Event.openMicDenied)).sentFrames = 0
      ∧ (step startingState Event.openSuccess).status = Status.listening) :=
  ⟨by decide, mic_denied_safety c8Trace (by decide)⟩

/-- Claim C9 counterexample: the captured full-scale sample 1 is scaled to
32768, which is not representable as a signed 16-bit integer, and the
Int16Array store wraps it to -32768; so the claim that every sample in the
closed interval from -1 to 1 is scaled into the signed 16-bit range is
false at 1. -/
theorem encode_scaling_cex :
    jsTrunc ((1 : ℚ) * 32768) = 32768
    ∧ ¬ jsTrunc ((1 : ℚ) * 32768) ≤ 32767
    ∧ encodeSample 1 = -32768 := by
  have h1 : jsTrunc ((1 : ℚ) * 32768) = 32768 := by
    have hv : (1 : ℚ) * 32768 = ((32768 : ℤ) : ℚ) := by norm_num
    rw [jsTrunc, if_pos (by norm_num), hv, Int.floor_intCast]
  refine ⟨h1, by omega, ?_⟩
  rw [encodeSample, h1]
  decide

/-- Claim C9 amended: for every captured sample f with -1 ≤ f < 1 the stored
value is the truncation of f * 32768, which lies in the signed 16-bit range
with no wraparound (full-scale 1 itself wraps to -32768); the samples are
packed to two bytes each in order, every packed byte is below 256, the
packed bytes are encoded with the text-safe transport encoding (base64,
modelled from the spec since the encode helper is not under src/), whose
output consists only of base64 digits and padding; all of it deterministic
and without resampling. -/
theorem encode_scaling (f : ℚ) (h1 : -1 ≤ f) (h2 : f < 1) (fs : List ℚ) :
    encodeSample f = jsTrunc (f * 32768)
    ∧ -32768 ≤ encodeSample f
    ∧ encodeSample f ≤ 32767
    ∧ (encodeChunk fs).length = 2 * fs.length
    ∧ (encodeChunk fs).all (fun b => decide (b < 256)) = true
    ∧ encodeFrame fs = base64Encode (encodeChunk fs)
    ∧ (encodeFrame fs).all isBase64Char = true := by
  have hl : (-32768 : ℚ) ≤ f * 32768 := by nlinarith
  have hu : f * 32768 < 32768 := by nlinarith
  obtain ⟨hb1, hb2⟩ := jsTrunc_bounds (f * 32768) hl hu
  have he : encodeSample f = jsTrunc (f * 32768) := by
    rw [encodeSample, toInt16_eq_self _ hb1 hb2]
  exact ⟨he, by rw [he]; exact hb1, by rw [he]; exact hb2, encodeChunk_length fs,
    encodeChunk_bytes_lt fs, rfl, base64Encode_text_safe (encodeChunk fs)⟩

/-- Witness for the amended C9 at sample 0 and a two-sample chunk. -/
theorem encode_scaling_witness :
    ((-1 : ℚ) ≤ 0 ∧ (0 : ℚ) < 1)
    ∧ (encodeSample 0 = jsTrunc ((0 : ℚ) * 32768)
      ∧ -32768 ≤ encodeSample 0
      ∧ encodeSample 0 ≤ 32767
      ∧ (encodeChunk [(0 : ℚ), 1]).length = 2 * ([(0 : ℚ), 1] : List ℚ).length
      ∧ (encodeChunk [(0 : ℚ), 1]).all (fun b => decide (b < 256)) = true
      ∧ encodeFrame [(0 : ℚ), 1] = base64Encode (encodeChunk [(0 : ℚ), 1])
      ∧ (encodeFrame [(0 : ℚ), 1]).all isBase64Char = true) :=
  ⟨⟨by norm_num, by norm_num⟩,
    encode_scaling 0 (by norm_num) (by norm_num) [(0 : ℚ), 1]⟩

/-- Claim C10: within a committed turn, when both trimmed accumulators are
non-empty, the You entry is appended immediately before the Judge entry, so
the user utterance precedes the judge utterance in the transcript log. -/
theorem transcript_order_within_turn (s : SessionState)
    (hu : jsTrim s.userAcc ≠ "") (hj : jsTrim s.judgeAcc ≠ "") :
    (step s Event.turnComplete).transcripts
      = s.transcripts
        ++ [⟨Speaker.you, jsTrim s.userAcc⟩, ⟨Speaker.judge, jsTrim s.judgeAcc⟩] := by
  simp [step, hu, hj]

/-- Witness for C10 at a concrete state with both accumulators non-empty. -/
theorem transcript_order_within_turn_witness :
    (jsTrim bothAccState.userAcc ≠ "")
    ∧ (jsTrim bothAccState.judgeAcc ≠ "")
    ∧ (step bothAccState Event.turnComplete).transcripts
      = bothAccState.transcripts
        ++ [⟨Speaker.you, jsTrim bothAccState.userAcc⟩,
            ⟨Speaker.judge, jsTrim bothAccState.judgeAcc⟩] :=
  ⟨by decide, by decide,
    transcript_order_within_turn bothAccState (by decide) (by decide)⟩

end Satyavak
